import Mathlib

/-!
Verification development for the `multi_condition_comparisions` package
(differential-expression analysis over several statistical backends).

The definitions below are a shallow embedding of the Python source:

* `src/multi_condition_comparisions/tl/de.py` — `BaseMethod` (constructor
  checks, `cond`, `contrast`, `test_contrasts`), `StatsmodelsDE`,
  `EdgeRDE`, `WilcoxonTest`;
* `src/multi_condition_comparisions/methods/_statsmodels.py` — `Statsmodels`
  (`_test_single_contrast` with its per-row `fdrcorrection` call, `contrast`);
* `src/multi_condition_comparisions/methods/_edger.py` — `EdgeR.fit`.

External collaborators (the formulaic formula engine, the statsmodels
regression fit, numpy) are represented by abstract function parameters or by
faithful re-implementations of the exact routine the code calls
(`statsmodels.stats.multitest.fdrcorrection`, Benjamini-Hochberg).
Numeric values are rationals.
-/

/-- A value appearing in an expression matrix cell: a finite number, the
floating-point NaN, an infinity, or a value of non-numeric dtype (e.g. a
string).  Mirrors the cases distinguished by the checks in
`BaseMethod.__init__` (de.py lines 53-58). -/
inductive MVal where
  | num : ℚ → MVal
  | nanV : MVal
  | infV : MVal
  | nonNumericV : MVal
deriving DecidableEq

/-- A value of a keyword argument passed to `cond`: a category level
(a Python `str`) or a number (continuous covariates default to `0`). -/
inductive CondVal where
  | str : String → CondVal
  | num : ℚ → CondVal
deriving DecidableEq

/-- The encoder state recorded by formulaic for one model variable:
`design.model_spec.encoder_state[var][0].value` is either `"categorical"`
(with the set of observed categories, `encoder_state[var][1]["categories"]`)
or a non-categorical (numerical) kind. -/
inductive VarKind where
  | categorical : List String → VarKind
  | numerical : VarKind
deriving DecidableEq

/-- Python exceptions raised by the embedded code, with their messages. -/
inductive DEError where
  | valueError : String → DEError
  | runtimeError : String → DEError
  | typeError : String → DEError
  | keyError : String → DEError
  | indexError : String → DEError
  | assertionError : DEError
deriving DecidableEq

instance {ε α : Type} [DecidableEq ε] [DecidableEq α] : DecidableEq (Except ε α) := fun a b =>
  match a, b with
  | .ok x, .ok y =>
    if h : x = y then .isTrue (by rw [h])
    else .isFalse (by intro hc; cases hc; exact h rfl)
  | .ok _, .error _ => .isFalse (by intro hc; cases hc)
  | .error _, .ok _ => .isFalse (by intro hc; cases hc)
  | .error e, .error f =>
    if h : e = f then .isTrue (by rw [h])
    else .isFalse (by intro hc; cases hc; exact h rfl)

/-- A Python `dict[str, value]`, as an association list (first binding of a
key is the live one; `dictInsert` updates in place). -/
abbrev CondDict := List (String × CondVal)

/-- `d[k]` lookup (`None` when the key is absent). -/
def dictGet (d : CondDict) (k : String) : Option CondVal :=
  match d with
  | [] => none
  | (k0, v0) :: rest => if k0 = k then some v0 else dictGet rest k

/-- `d[k] = v`: update the existing binding in place, else append. -/
def dictInsert (d : CondDict) (k : String) (v : CondVal) : CondDict :=
  match d with
  | [] => [(k, v)]
  | (k0, v0) :: rest =>
    if k0 = k then (k0, v) :: rest else (k0, v0) :: dictInsert rest k v

theorem dictGet_dictInsert_self (d : CondDict) (k : String) (v : CondVal) :
    dictGet (dictInsert d k v) k = some v := by
  induction d with
  | nil => simp [dictInsert, dictGet]
  | cons p rest ih =>
    by_cases h : p.1 = k
    · simp [dictInsert, dictGet, h]
    · simp [dictInsert, dictGet, h, ih]

theorem dictGet_dictInsert_ne (d : CondDict) (k j : String) (v : CondVal)
    (h : j ≠ k) : dictGet (dictInsert d k v) j = dictGet d j := by
  have hkj : ¬ k = j := fun hc => h hc.symm
  induction d with
  | nil => simp [dictInsert, dictGet, hkj]
  | cons p rest ih =>
    by_cases hp : p.1 = k
    · simp [dictInsert, dictGet, hp, hkj]
    · by_cases hj : p.1 = j <;> simp [dictInsert, dictGet, hp, hj, h, ih]

/-! ## Column-name parsing used by `cond`

`BaseMethod.cond` (de.py lines 158-160) recovers the category encoded by a
design-matrix column from the column NAME, with the regular expression
`^.+\[T\.(.+)\]$` (both `.+` are greedy).  We implement that regex directly
on the character list of the string: split the name (without its final `]`)
at every occurrence of the separator `[T.`, then pick the rightmost split
point that leaves both the part before the separator and the captured group
non-empty, exactly as the greedy backtracking of the regex engine does. -/

/-- Split a character list at every occurrence of the three-character
separator `[T.` (the pieces do not contain the separator). -/
def splitOnSepT : List Char → List (List Char)
  | [] => [[]]
  | '[' :: 'T' :: '.' :: rest => [] :: splitOnSepT rest
  | c :: rest =>
    match splitOnSepT rest with
    | [] => [[c]]
    | p :: ps => (c :: p) :: ps

/-- Re-join pieces with the separator `[T.` (inverse of `splitOnSepT`). -/
def joinSepT : List (List Char) → List Char
  | [] => []
  | [p] => p
  | p :: ps => p ++ '[' :: 'T' :: '.' :: joinSepT ps

/-- Try split points from the right: at split point `i` (counting pieces in
the prefix), the prefix must be non-empty (`^.+`) and the captured group
(the joined remainder) non-empty (`(.+)`).  The greedy regex takes the
largest such `i`. -/
def pickGreedySplit (parts : List (List Char)) : Nat → Option (List Char)
  | 0 => none
  | Nat.succ i =>
    let pre := joinSepT (parts.take (i + 1))
    let grp := joinSepT (parts.drop (i + 1))
    if pre ≠ [] ∧ grp ≠ [] then some grp else pickGreedySplit parts i

/-- `_get_var_from_colname` (de.py lines 158-160): apply the regex
`^.+\[T\.(.+)\]$` to a column name and return the captured group; `none`
models the Python crash (`regex.search(...)` returning `None` and
`.groups()` failing) when the regex does not match. -/
def getVarFromColname (colname : String) : Option String :=
  let cs := colname.data
  if cs.getLast? = some ']' then
    let parts := splitOnSepT cs.dropLast
    (pickGreedySplit parts (parts.length - 1)).map (fun l => String.mk l)
  else none

/-- `colname.startswith(p)` on Python strings. -/
def strStartsWith (colname p : String) : Bool :=
  List.isPrefixOf p.data colname.data

/-- Keep one copy of every element (Python `set` semantics: only membership
and cardinality of the result are ever used, so the retained order is
irrelevant; this keeps the last occurrence). -/
def dedupLast : List String → List String
  | [] => []
  | x :: xs => if x ∈ xs then dedupLast xs else x :: dedupLast xs

/-! ## The design, as `cond` consumes it

`cond` reads from a formulaic `ModelMatrix`: the list of model variables
(`model_spec.variables_by_source["data"]`), the per-variable encoder state,
the design-matrix column names, and the encoding path
(`model_spec.get_model_matrix(df)`) that turns a one-row data frame into a
coefficient row.  The encoding path belongs to the external formula engine
(spec section 6), so it is an abstract function here; it receives the values
of the model variables read off the completed dictionary by name, which is
how `get_model_matrix` consumes the one-row `pd.DataFrame([kwargs])`. -/

structure ModelMatrixSpec where
  vars : List String
  encoderState : List (String × VarKind)
  columns : List String
  encodeRow : List (Option CondVal) → List ℚ

/-- Lookup in the encoder state (`model_spec.encoder_state[var]`;
a missing key is a Python `KeyError`). -/
def encoderGet (es : List (String × VarKind)) (k : String) : Option VarKind :=
  match es with
  | [] => none
  | (k0, v0) :: rest => if k0 = k then some v0 else encoderGet rest k

/-- The design bound to a method instance: either a `ModelMatrix` built by
formulaic from a formula string, or a raw design matrix supplied by the
caller (`isinstance(self.design, ModelMatrix)` distinguishes the two). -/
inductive Design where
  | formulaBased : ModelMatrixSpec → Design
  | rawMatrix : List (List ℚ) → Design

/-! ## `cond` and `contrast` (de.py lines 145-202) -/

/-- The message of the `RuntimeError` raised by `cond` when the design is a
raw matrix rather than a formulaic `ModelMatrix` (de.py lines 162-166). -/
def condRawDesignMsg : String :=
  "Building contrasts with cond only works if you specified the model using a formulaic formula. Please manually provide a contrast vector."

/-- For each design-matrix column of the variable
(`self.design.columns[self.design.columns.str.startswith(var + chr(91))]`),
extract its category with `_get_var_from_colname`; a column the regex does
not match crashes in Python (modelled as a `typeError`).  The result is the
set `present_categories` (de.py line 184). -/
def parseVarCols : List String → Except DEError (List String)
  | [] => .ok []
  | c :: rest =>
    match getVarFromColname c with
    | none => .error (.typeError "NoneType object has no attribute groups")
    | some cat => do
      let r ← parseVarCols rest
      .ok (cat :: r)

/-- `dropped_category = all_categories - present_categories` (de.py
line 185), as the deduplicated list of categories of the variable that do
not appear in any of its design-matrix columns. -/
def droppedCategories (spec : ModelMatrixSpec) (var : String)
    (cats : List String) : Except DEError (List String) := do
  let present ← parseVarCols
    (spec.columns.filter (fun c => strStartsWith c (var ++ "[")))
  .ok (dedupLast (cats.filter (fun c => decide (c ∉ present))))

/-- One iteration of the loop `for var in self.variables` in `cond`
(de.py lines 168-187), acting on the dictionary `cond_dict` (which, in the
source, is the same object as `kwargs`):

* `encoder_state[var]` missing is a `KeyError`;
* if the caller supplied a value for a categorical variable it must be one
  of the observed categories, otherwise a `ValueError` (a supplied
  non-string value is likewise never a member of the category set);
* an unsupplied numerical variable defaults to `0`;
* an unsupplied categorical variable defaults to the single dropped
  category computed from the column names (`assert len(dropped) == 1`,
  modelled as an `assertionError` when it is not a singleton). -/
def fillVar (spec : ModelMatrixSpec) (var : String) (dict : CondDict) :
    Except DEError CondDict :=
  match encoderGet spec.encoderState var with
  | none => .error (.keyError var)
  | some kind =>
    match dictGet dict var with
    | some val =>
      match kind with
      | .numerical => .ok dict
      | .categorical cats =>
        match val with
        | .str s =>
          if s ∈ cats then .ok dict
          else .error (.valueError ("You specified a non-existant category for " ++ var))
        | .num _ =>
          .error (.valueError ("You specified a non-existant category for " ++ var))
    | none =>
      match kind with
      | .numerical => .ok (dictInsert dict var (.num 0))
      | .categorical cats => do
        let dropped ← droppedCategories spec var cats
        match dropped with
        | [d] => .ok (dictInsert dict var (.str d))
        | _ => .error .assertionError

/-- The whole `for var in self.variables` loop of `cond`, threading the
mutated dictionary. -/
def fillDefaults (spec : ModelMatrixSpec) :
    List String → CondDict → Except DEError CondDict
  | [], dict => .ok dict
  | var :: rest, dict => do
    let d ← fillVar spec var dict
    fillDefaults spec rest d

namespace BaseMethod

/-- `BaseMethod.cond(**kwargs)` (de.py lines 145-190).  With a raw-matrix
design it raises `RuntimeError`; with a formula-based design it completes
the keyword dictionary (which is also `cond_dict`) with default values for
every unsupplied model variable and feeds the one-row data frame through
the stored encoding path, which reads the model variables by name. -/
def cond (design : Design) (kwargs : CondDict) : Except DEError (List ℚ) :=
  match design with
  | .rawMatrix _ => .error (.runtimeError condRawDesignMsg)
  | .formulaBased spec => do
    let d ← fillDefaults spec spec.vars kwargs
    .ok (spec.encodeRow (spec.vars.map (fun v => dictGet d v)))

/-- `BaseMethod.contrast(column, baseline, group_to_compare)` (de.py lines
192-202), identical to `Statsmodels.contrast` (methods/_statsmodels.py
lines 69-79): `self.cond(**(column: baseline)) -
self.cond(**(column: group_to_compare))`, the left call evaluated first and
the numpy elementwise difference modelled by `zipWith`. -/
def contrast (design : Design) (column baseline groupToCompare : String) :
    Except DEError (List ℚ) := do
  let a ← cond design [(column, .str baseline)]
  let b ← cond design [(column, .str groupToCompare)]
  .ok (List.zipWith (fun x y => x - y) a b)

end BaseMethod

/-! ## Sorting result tables by a rational key

`pd.DataFrame(res).sort_values(col)` sorts rows by the named column,
ascending; only the ordering and the multiset of rows matter, so we model
it as an insertion sort by the key. -/

def insertByKey {α : Type} (key : α → ℚ) (x : α) : List α → List α
  | [] => [x]
  | y :: ys => if key x ≤ key y then x :: y :: ys else y :: insertByKey key x ys

def sortByKey {α : Type} (key : α → ℚ) : List α → List α
  | [] => []
  | x :: xs => insertByKey key x (sortByKey key xs)

theorem insertByKey_length {α : Type} (key : α → ℚ) (x : α) (l : List α) :
    (insertByKey key x l).length = l.length + 1 := by
  induction l with
  | nil => rfl
  | cons y ys ih =>
    by_cases h : key x ≤ key y <;> simp [insertByKey, h, ih]

theorem sortByKey_length {α : Type} (key : α → ℚ) (l : List α) :
    (sortByKey key l).length = l.length := by
  induction l with
  | nil => rfl
  | cons x xs ih => simp [sortByKey, insertByKey_length, ih]

theorem mem_insertByKey {α : Type} (key : α → ℚ) (x z : α) (l : List α) :
    z ∈ insertByKey key x l ↔ z = x ∨ z ∈ l := by
  induction l with
  | nil => simp [insertByKey]
  | cons y ys ih =>
    by_cases h : key x ≤ key y <;>
      · simp only [insertByKey, h, if_true, if_false, List.mem_cons, ih]
        try tauto

theorem insertByKey_sorted {α : Type} (key : α → ℚ) (x : α) (l : List α)
    (h : List.Pairwise (fun a b => key a ≤ key b) l) :
    List.Pairwise (fun a b => key a ≤ key b) (insertByKey key x l) := by
  induction l with
  | nil => simp [insertByKey]
  | cons y ys ih =>
    rcases List.pairwise_cons.mp h with ⟨hy, hys⟩
    by_cases hxy : key x ≤ key y
    · rw [insertByKey, if_pos hxy]
      refine List.pairwise_cons.mpr ⟨?_, h⟩
      intro z hz
      rcases List.mem_cons.mp hz with rfl | hz
      · exact hxy
      · exact le_trans hxy (hy z hz)
    · rw [insertByKey, if_neg hxy]
      refine List.pairwise_cons.mpr ⟨?_, ih hys⟩
      intro z hz
      rcases (mem_insertByKey key x z ys).mp hz with rfl | hz
      · exact le_of_not_le hxy
      · exact hy z hz

theorem sortByKey_sorted {α : Type} (key : α → ℚ) (l : List α) :
    List.Pairwise (fun a b => key a ≤ key b) (sortByKey key l) := by
  induction l with
  | nil => simp [sortByKey]
  | cons x xs ih => exact insertByKey_sorted key x _ ih

/-! ## StatsmodelsDE (tl/de.py lines 205-258)

A fitted per-feature statsmodels regression model is consumed only through
`mod.t_test(contrast)`, which yields effect, standard error, t statistic and
p-value: we model a fitted model as a function from the contrast vector to
that record (the regression engine is an external collaborator, spec
section 6). -/

structure TTestResult where
  pvalue : ℚ
  tvalue : ℚ
  sd : ℚ
  effect : ℚ
deriving DecidableEq

/-- A fitted per-feature model, observed through `t_test`. -/
abbrev FittedModel := List ℚ → TTestResult

/-- The state of a `StatsmodelsDE` instance relevant to `fit`: the feature
names (`adata.var_names`) and the fitted model collection `self.models`
(absent before the first `fit`). -/
structure SMDEState where
  varNames : List String
  models : Option (List FittedModel)

/-- `StatsmodelsDE.fit` (de.py lines 211-243): `self.models = []` followed by
one append per feature, i.e. the prior collection is discarded and
`self.models` is rebuilt as one fitted model per entry of
`adata.var_names`.  `fitOne` stands for constructing and fitting the
regression model on one feature column. -/
def StatsmodelsDE.fit (fitOne : String → FittedModel) (st : SMDEState) :
    SMDEState :=
  { st with models := some (st.varNames.map fitOne) }

/-- A row of the `StatsmodelsDE._test_single_contrast` result frame
(de.py lines 249-257). -/
structure SMDERow where
  varName : String
  pvalue : ℚ
  tvalue : ℚ
  sd : ℚ
  fold_change : ℚ
deriving DecidableEq

/-- `StatsmodelsDE._test_single_contrast` (de.py lines 245-258): one row per
element of `zip(adata.var_names, models)` built from `mod.t_test(contrast)`,
then `sort_values(pvalue)` (`set_index` and the progress bar do not change
the rows). -/
def StatsmodelsDE.testSingleContrast (varNames : List String)
    (models : List FittedModel) (contrastVec : List ℚ) : List SMDERow :=
  sortByKey (fun r => r.pvalue)
    ((varNames.zip models).map (fun p =>
      let t := p.2 contrastVec
      ⟨p.1, t.pvalue, t.tvalue, t.sd, t.effect⟩))

/-! ## statsmodels.stats.multitest.fdrcorrection (Benjamini-Hochberg)

`Statsmodels._test_single_contrast` (methods/_statsmodels.py line 64) calls
`statsmodels.stats.multitest.fdrcorrection` on a ONE-element array.  To talk
about what the routine does we embed it in full (method "indep"): sort the
p-values ascending, divide by the ecdf factor `rank/n`, take the reversed
cumulative minimum, clip at 1, and scatter back to the original order. -/

/-- `np.minimum.accumulate(xs[::-1])[::-1]`: suffix minima. -/
def suffixMins : List ℚ → List ℚ
  | [] => []
  | x :: xs =>
    match suffixMins xs with
    | [] => [x]
    | y :: ys => min x y :: y :: ys

/-- Pair every element with its position, starting at `i`. -/
def enumFrom {α : Type} (i : Nat) : List α → List (Nat × α)
  | [] => []
  | x :: xs => (i, x) :: enumFrom (i + 1) xs

/-- `fdrcorrection(pvals)[1]` for `method="indep"` (Benjamini-Hochberg):
argsort the p-values, divide each by its ecdf factor `rank/n`, take the
reversed cumulative minimum, clip at 1, scatter back to the input order. -/
def fdrcorrection (pvals : List ℚ) : List ℚ :=
  let n : ℚ := (pvals.length : ℚ)
  let sorted : List (Nat × ℚ) := sortByKey (fun p => p.2) (enumFrom 0 pvals)
  let raw : List (Nat × ℚ) := (enumFrom 0 sorted).map
    (fun q => (q.2.1, q.2.2 * n / ((q.1 : ℚ) + 1)))
  let keys := raw.map (fun p => p.1)
  let corrected := (suffixMins (raw.map (fun p => p.2))).map
    (fun q => if 1 < q then 1 else q)
  (sortByKey (fun p => ((p.1 : ℚ))) (keys.zip corrected)).map (fun p => p.2)

/-- A row of the `Statsmodels._test_single_contrast` result frame
(methods/_statsmodels.py lines 57-66). -/
structure SMRow where
  varName : String
  p_value : ℚ
  t_value : ℚ
  sd : ℚ
  log_fc : ℚ
  adj_p_value : ℚ
deriving DecidableEq

/-- `Statsmodels._test_single_contrast` (methods/_statsmodels.py lines
53-67): one row per element of `zip(var_names, models)`; the row's
`adj_p_value` is `fdrcorrection(np.array([t_test.pvalue]))[1].item()` — the
correction routine applied to the ONE-element array holding this row's own
p-value; finally `sort_values(p_value)`. -/
def Statsmodels.testSingleContrast (varNames : List String)
    (models : List FittedModel) (contrastVec : List ℚ) : List SMRow :=
  sortByKey (fun r => r.p_value)
    ((varNames.zip models).map (fun p =>
      let t := p.2 contrastVec
      ⟨p.1, t.pvalue, t.tvalue, t.sd, t.effect,
        (fdrcorrection [t.pvalue]).getD 0 0⟩))

/-! ## WilcoxonTest (tl/de.py lines 452-519) -/

/-- A row of the `WilcoxonTest._test_single_contrast` result frame. -/
structure WRow where
  varName : String
  pvalue : ℚ
  fold_change : ℚ
deriving DecidableEq

/-- A minimal AnnData object as `WilcoxonTest` consumes it: observation
(sample) names, variable (feature) names, the categorical metadata columns
of `.obs`, and the expression matrix `.X` (one row per observation, aligned
with `varNames`; `layer` is `None` throughout as in the other adapters). -/
structure AnnDataM where
  obsNames : List String
  varNames : List String
  obsCols : List (String × List String)
  x : List (List ℚ)

/-- `self.adata.obs[k]`: pandas column lookup; a missing column is a
`KeyError`. -/
def obsColumn (a : AnnDataM) (k : String) : Except DEError (List String) :=
  match a.obsCols.find? (fun c => decide (c.1 = k)) with
  | none => .error (.keyError k)
  | some c => .ok c.2

/-- Keep the observations selected by a boolean mask. -/
def annDataSelectRows (a : AnnDataM) (keep : List Bool) : AnnDataM where
  obsNames := ((a.obsNames.zip keep).filter (fun p => p.2)).map (fun p => p.1)
  varNames := a.varNames
  obsCols := a.obsCols.map (fun c =>
    (c.1, ((c.2.zip keep).filter (fun p => p.2)).map (fun p => p.1)))
  x := ((a.x.zip keep).filter (fun p => p.2)).map (fun p => p.1)

/-- `adata[s]` with a single string index: anndata resolves it against the
observation names and raises `KeyError` when it is not one. -/
def annDataIndexStr (a : AnnDataM) (s : String) : Except DEError AnnDataM :=
  if s ∈ a.obsNames then
    .ok (annDataSelectRows a (a.obsNames.map (fun n => decide (n = s))))
  else .error (.keyError s)

/-- `adata[names]` with a list of strings: resolved against the observation
names; any missing name raises `KeyError`. -/
def annDataIndexList (a : AnnDataM) (names : List String) :
    Except DEError AnnDataM :=
  match names.find? (fun s => decide (s ∉ a.obsNames)) with
  | some missing => .error (.keyError missing)
  | none => .ok (annDataSelectRows a (a.obsNames.map (fun n => decide (n ∈ names))))

/-- `adata[mask, var].X` flattened: the `var` column of the mask-selected
observations (`KeyError` when `var` is not a variable name). -/
def annDataMaskVar (a : AnnDataM) (mask : List Bool) (var : String) :
    Except DEError (List ℚ) :=
  match a.varNames.findIdx? (fun v => decide (v = var)) with
  | none => .error (.keyError var)
  | some j =>
    .ok (((a.x.zip mask).filter (fun p => p.2)).map (fun p => p.1.getD j 0))

/-- `adata[i, var].X` flattened, for an integer row index (in Python `bool`
is a subtype of `int`, so the index `False` selects row 0); a row index out
of range is an `IndexError`. -/
def annDataRowVar (a : AnnDataM) (i : Nat) (var : String) :
    Except DEError (List ℚ) :=
  match a.varNames.findIdx? (fun v => decide (v = var)) with
  | none => .error (.keyError var)
  | some j =>
    match a.x[i]? with
    | none => .error (.indexError "index is out of range")
    | some row => .ok [row.getD j 0]

/-- `np.mean` of the (never empty on the paths below) flattened values. -/
def listMean (l : List ℚ) : ℚ := l.sum / (l.length : ℚ)

/-- `WilcoxonTest._test` (de.py lines 459-496) for the contrast triple
`(c0, c1, c2)` and one feature `var`:

* de.py line 485: `adata0 = self.adata[self.adata.obs[c0] == c1, var]` —
  the obs column `c0` (KeyError when absent) compared elementwise with the
  level `c1` gives a boolean mask selecting the first group;
* de.py line 486: `adata1 = self.adata[self.adata[c0] == c2, var]` — the
  `.obs` is MISSING in the source, so the AnnData itself is indexed by the
  column name `c0`, which anndata resolves against the observation names
  (KeyError for ordinary inputs).  Were `c0` an observation name, the
  resulting view compared with `==` to the string `c2` is plain object
  identity, i.e. `False`, and `False` — an `int` in Python — indexes row 0;
* the two flattened value vectors go to `scipy.stats.mannwhitneyu`
  (external, abstracted as `mwu`) whose p-value is returned. -/
def WilcoxonTest.test (a : AnnDataM) (mwu : List ℚ → List ℚ → ℚ)
    (c0 c1 c2 : String) (var : String) : Except DEError ℚ := do
  let col ← obsColumn a c0
  let x0 ← annDataMaskVar a (col.map (fun s => decide (s = c1))) var
  let _view ← annDataIndexStr a c0
  let x1 ← annDataRowVar a 0 var
  .ok (mwu x0 x1)

/-- The loop body of `WilcoxonTest._test_single_contrast` (de.py lines
503-518) for one feature: `pval = self._test(contrast, var)` runs first;
then de.py lines 504-505 compute
`self.adata[self.adata[contrast] == contrast[i], var]` for i = 0, 1 — the
AnnData indexed by the LIST of the three contrast strings as observation
names (KeyError for ordinary inputs; a resolved view compared `==` to a
string is again `False`, indexing row 0) — and the row's fold change is
`np.log(mean_x1) - np.log(mean_x0)` (`np.log` abstracted as `logFn`). -/
def WilcoxonTest.testRow (a : AnnDataM) (mwu : List ℚ → List ℚ → ℚ)
    (logFn : ℚ → ℚ) (c0 c1 c2 : String) (var : String) :
    Except DEError WRow := do
  let pval ← WilcoxonTest.test a mwu c0 c1 c2 var
  let _v0 ← annDataIndexList a [c0, c1, c2]
  let x0 ← annDataRowVar a 0 var
  let _v1 ← annDataIndexList a [c0, c1, c2]
  let x1 ← annDataRowVar a 0 var
  .ok ⟨var, pval, logFn (listMean x1) - logFn (listMean x0)⟩

/-- `for var in tqdm(self.adata.var_names)` collecting the rows; the first
exception aborts the whole call. -/
def WilcoxonTest.rowsLoop (a : AnnDataM) (mwu : List ℚ → List ℚ → ℚ)
    (logFn : ℚ → ℚ) (c0 c1 c2 : String) :
    List String → Except DEError (List WRow)
  | [] => .ok []
  | v :: vs => do
    let r ← WilcoxonTest.testRow a mwu logFn c0 c1 c2 v
    let rest ← WilcoxonTest.rowsLoop a mwu logFn c0 c1 c2 vs
    .ok (r :: rest)

/-- `WilcoxonTest._test_single_contrast` (de.py lines 498-519): a contrast
specification whose length is not 3 raises `ValueError("Contrast")`;
otherwise one loop iteration per entry of `adata.var_names`, and the
collected rows are sorted by p-value. -/
def WilcoxonTest.testSingleContrast (a : AnnDataM)
    (mwu : List ℚ → List ℚ → ℚ) (logFn : ℚ → ℚ)
    (contrastSpec : List String) : Except DEError (List WRow) :=
  match contrastSpec with
  | [c0, c1, c2] => do
    let rows ← WilcoxonTest.rowsLoop a mwu logFn c0 c1 c2 a.varNames
    .ok (sortByKey (fun r => r.pvalue) rows)
  | _ => .error (.valueError "Contrast")

/-! ## BaseMethod.test_contrasts (tl/de.py lines 106-124) -/

/-- The argument of `test_contrasts`: either a bare single contrast or a
dict from contrast names to contrasts (`isinstance(contrasts, dict)`). -/
inductive ContrastsArg (C : Type) where
  | single : C → ContrastsArg C
  | mapping : List (String × C) → ContrastsArg C

/-- The loop `for name, contrast in contrasts.items(): results.append(
self._test_single_contrast(contrast).assign(contrast=name))`: each row of a
per-contrast table is tagged with that contrast's name. -/
def testContrastsLoop {C R : Type} (testSingle : C → List R) :
    List (Option String × C) → List (List (Option String × R))
  | [] => []
  | (name, c) :: rest =>
    ((testSingle c).map (fun r => (name, r))) :: testContrastsLoop testSingle rest

/-- `BaseMethod.test_contrasts` (de.py lines 106-124): a non-dict argument
is first wrapped as the one-entry dict with key `None`; then the loop runs
and `pd.concat(results)` concatenates the per-contrast tables row-wise in
loop order. -/
def BaseMethod.testContrasts {C R : Type} (testSingle : C → List R)
    (contrasts : ContrastsArg C) : List (Option String × R) :=
  let contrastsDict : List (Option String × C) :=
    match contrasts with
    | .single c => [(none, c)]
    | .mapping m => m.map (fun p => (some p.1, p.2))
  (testContrastsLoop testSingle contrastsDict).flatten

/-! ## BaseMethod.__init__ count checks (tl/de.py lines 22-69) -/

/-- The (already masked) expression matrix, as a list of rows of cells. -/
abbrev CountMatrix := List (List MVal)

def matrixHasNaN (m : CountMatrix) : Bool :=
  m.any (fun row => row.any (fun x => x = MVal.nanV))

def matrixHasInf (m : CountMatrix) : Bool :=
  m.any (fun row => row.any (fun x => x = MVal.infV))

/-- `not np.issubdtype(X.dtype, np.number)`: the array dtype is non-numeric
exactly when it holds a non-numeric value. -/
def matrixNonNumericDtype (m : CountMatrix) : Bool :=
  m.any (fun row => row.any (fun x => x = MVal.nonNumericV))

/-- The state bound by a successful `BaseMethod.__init__`. -/
structure BaseState where
  matrix : CountMatrix
  design : Design

/-- `BaseMethod.__init__` after the mask has been applied (de.py lines
47-69), for an arbitrary backend predicate `_check_counts`:

1. `np.any(np.isnan(X)) or np.any(np.isinf(X))` — on a non-numeric dtype
   `np.isnan` itself raises `TypeError`; otherwise a NaN or Inf entry
   raises `ValueError`;
2. `not np.issubdtype(X.dtype, np.number)` raises `ValueError` (unreachable
   in fact, because step 1 already raised on a non-numeric dtype; kept for
   fidelity);
3. `not self._check_counts()` raises `ValueError`;
4. otherwise the instance is constructed (only then can `fit` be called). -/
def BaseMethod.init (checkCounts : CountMatrix → Bool) (m : CountMatrix)
    (design : Design) : Except DEError BaseState :=
  if matrixNonNumericDtype m then
    .error (.typeError "ufunc isnan not supported for the input types")
  else if matrixHasNaN m || matrixHasInf m then
    .error (.valueError "Counts cannot contain NaN or Inf values.")
  else if matrixNonNumericDtype m then
    .error (.valueError "Counts must be numeric.")
  else if !(checkCounts m) then
    .error (.valueError "Counts are not valid for this method.")
  else .ok ⟨m, design⟩

/-! ## EdgeRDE.fit (tl/de.py lines 317-387; methods/_edger.py lines 27-96)

Both EdgeR variants end `fit` with `self.fit = fit`: the instance attribute
named `fit` is set to the edgeR fit object returned by `glmQLFit`.  By
Python attribute lookup, `instance.fit` thereafter resolves to that stored
object — which shadows the bound method of the class — so a second
`instance.fit()` call applies a non-callable R object.  The R bridge itself
is external (spec section 6): `runEdger` stands for the
`calcNormFactors` / `estimateDisp` / `glmQLFit` pipeline. -/

/-- The state of an `EdgeRDE` instance: `R` is the type of the edgeR fit
object; `fitAttr` is the instance attribute named `fit` (absent until the
method body has run). -/
structure EdgeRState (R : Type) where
  fitAttr : Option R
deriving DecidableEq

/-- Calling `instance.fit()` on an EdgeR method instance: attribute lookup
finds the instance attribute `fit` first when it exists, and an R fit
object is not callable (`TypeError`); otherwise the class method body runs
and stores the edgeR fit object into the attribute (de.py line 387,
_edger.py line 96: `self.fit = fit`). -/
def EdgeRDE.callFit {R : Type} (runEdger : EdgeRState R → R)
    (st : EdgeRState R) : Except DEError (EdgeRState R) :=
  match st.fitAttr with
  | some _ => .error (.typeError "ListSexpVector object is not callable")
  | none => .ok { st with fitAttr := some (runEdger st) }

/-! ## Concrete designs used by the witnesses -/

/-- The design of the formula `~ condition` over a metadata column
`condition` with levels A and B (reference A): columns `Intercept` and
`condition[T.B]`; the encoding path returns the treatment coding of the
supplied level. -/
def exSpec2 : ModelMatrixSpec where
  vars := ["condition"]
  encoderState := [("condition", .categorical ["A", "B"])]
  columns := ["Intercept", "condition[T.B]"]
  encodeRow := fun vals =>
    match vals with
    | [some (.str s)] => [1, if s = "B" then 1 else 0]
    | _ => []

def exDesign2 : Design := .formulaBased exSpec2

/-- The design of the formula `~ donor` over a metadata column `donor` with
three levels D0, D1, D2 (reference D0). -/
def exSpec3 : ModelMatrixSpec where
  vars := ["donor"]
  encoderState := [("donor", .categorical ["D0", "D1", "D2"])]
  columns := ["Intercept", "donor[T.D1]", "donor[T.D2]"]
  encodeRow := fun vals =>
    match vals with
    | [some (.str s)] => [1, if s = "D1" then 1 else 0, if s = "D2" then 1 else 0]
    | _ => []

/-! ## Claims -/

/-- C1: for a model whose design was built from a formula and a valid pair
of levels (baseline, group_to_compare) of a categorical column — validity
expressed as the success of the two `cond` calls — `contrast(column,
baseline, group_to_compare)` returns exactly
`cond(column=baseline) - cond(column=group_to_compare)`, the elementwise
difference of the two `cond` vectors, baseline minus comparison. -/
theorem contrast_is_cond_difference (design : Design)
    (column baseline groupToCompare : String) (va vb : List ℚ)
    (ha : BaseMethod.cond design [(column, .str baseline)] = .ok va)
    (hb : BaseMethod.cond design [(column, .str groupToCompare)] = .ok vb) :
    BaseMethod.contrast design column baseline groupToCompare =
      .ok (List.zipWith (fun x y => x - y) va vb) := by
  unfold BaseMethod.contrast
  rw [ha, hb]
  rfl

theorem contrast_is_cond_difference_witness :
    BaseMethod.cond exDesign2 [("condition", CondVal.str "A")] = .ok [1, 0] ∧
    BaseMethod.cond exDesign2 [("condition", CondVal.str "B")] = .ok [1, 1] ∧
    BaseMethod.contrast exDesign2 "condition" "A" "B" =
      .ok (List.zipWith (fun x y => x - y) [1, 0] [1, 1]) :=
  ⟨by decide, by decide,
   contrast_is_cond_difference exDesign2 "condition" "A" "B" [1, 0] [1, 1]
     (by decide) (by decide)⟩

theorem zipWith_sub_swap (xs ys : List ℚ) :
    List.zipWith (fun x y => x - y) ys xs =
      (List.zipWith (fun x y => x - y) xs ys).map (fun x => -x) := by
  induction xs generalizing ys with
  | nil => cases ys <;> simp
  | cons x xs ih =>
    cases ys with
    | nil => simp
    | cons y ys => simp [ih, neg_sub]

/-- C5: whenever `contrast(column, a, b)` returns a vector (in particular
for every valid pair of levels of a two-level categorical variable of a
formula-based design), `contrast(column, b, a)` returns its elementwise
negation. -/
theorem contrast_swap_is_negation (design : Design) (column a b : String)
    (v : List ℚ)
    (h : BaseMethod.contrast design column a b = .ok v) :
    BaseMethod.contrast design column b a = .ok (v.map (fun x => -x)) := by
  unfold BaseMethod.contrast at h ⊢
  cases hca : BaseMethod.cond design [(column, .str a)] with
  | error e =>
    rw [hca] at h
    simp only [bind, Except.bind] at h
    exact Except.noConfusion h
  | ok va =>
    cases hcb : BaseMethod.cond design [(column, .str b)] with
    | error e =>
      rw [hca, hcb] at h
      simp only [bind, Except.bind] at h
      exact Except.noConfusion h
    | ok vb =>
      rw [hca, hcb] at h
      simp only [bind, Except.bind] at h
      cases h
      simp only [bind, Except.bind]
      rw [zipWith_sub_swap]

theorem contrast_swap_is_negation_witness :
    BaseMethod.contrast exDesign2 "condition" "A" "B" = .ok [0, -1] ∧
    BaseMethod.contrast exDesign2 "condition" "B" "A" =
      .ok (([0, -1] : List ℚ).map (fun x => -x)) := by
  have h : BaseMethod.contrast exDesign2 "condition" "A" "B" = .ok [0, -1] := by
    have h0 : BaseMethod.contrast exDesign2 "condition" "A" "B" =
        .ok (List.zipWith (fun x y => x - y) [1, 0] [1, 1]) := rfl
    rw [h0]; norm_num
  exact ⟨h, contrast_swap_is_negation exDesign2 "condition" "A" "B" [0, -1] h⟩

/-- C9: `cond` on an instance whose design was supplied as a raw matrix
(no formulaic encoder state) always raises the `RuntimeError` whose message
directs the caller to provide a contrast vector manually, and never returns
a vector. -/
theorem cond_raw_design_raises (m : List (List ℚ)) (kwargs : CondDict) :
    BaseMethod.cond (.rawMatrix m) kwargs =
      .error (.runtimeError condRawDesignMsg) := rfl

theorem testContrastsLoop_eq_map {C R : Type} (testSingle : C → List R)
    (l : List (Option String × C)) :
    testContrastsLoop testSingle l =
      l.map (fun p => (testSingle p.2).map (fun r => (p.1, r))) := by
  induction l with
  | nil => rfl
  | cons p rest ih => cases p; simp [testContrastsLoop, ih]

/-- C6: `test_contrasts` on a mapping from names to contrasts returns the
row-wise concatenation of the per-contrast tables in mapping order, each
row tagged with its contrast's name; on a bare single contrast it returns
that contrast's table with the contrast column set to `None` on every
row. -/
theorem testContrasts_concat_and_tag {C R : Type} (testSingle : C → List R)
    (m : List (String × C)) (c : C) :
    BaseMethod.testContrasts testSingle (.mapping m) =
      (m.map (fun p => (testSingle p.2).map (fun r => (some p.1, r)))).flatten ∧
    BaseMethod.testContrasts testSingle (.single c) =
      (testSingle c).map (fun r => (none, r)) := by
  constructor
  · simp only [BaseMethod.testContrasts, testContrastsLoop_eq_map, List.map_map]
    rfl
  · simp [BaseMethod.testContrasts, testContrastsLoop]

/-- An ordinary `WilcoxonTest` input: two samples with a two-level
condition column and one feature.  `F = 1`, so the claim expects exactly one
row from `_test_single_contrast(["condition", "A", "B"])`. -/
def exAnnData : AnnDataM where
  obsNames := ["s1", "s2"]
  varNames := ["gene1"]
  obsCols := [("condition", ["A", "B"])]
  x := [[5], [7]]

/-- C7 (the claim fails for the Wilcoxon backend): with the model
collection produced by `fit` (one model per entry of `adata.var_names`),
both statsmodels variants of `_test_single_contrast` return exactly
`varNames.length` rows; but `WilcoxonTest._test_single_contrast` on an
ordinary input — two samples, a condition column with levels A and B, one
feature — raises `KeyError("condition")` at the first feature (de.py line
486 indexes the AnnData by the contrast COLUMN NAME as an observation
name), whatever the external `mannwhitneyu` and `np.log` compute, instead
of returning `F = 1` rows. -/
theorem testSingleContrast_one_row_per_feature :
    (∀ (st : SMDEState) (fitOne : String → FittedModel) (cvec : List ℚ),
      (StatsmodelsDE.testSingleContrast st.varNames
        ((StatsmodelsDE.fit fitOne st).models.getD []) cvec).length =
          st.varNames.length) ∧
    (∀ (varNames : List String) (fitOne : String → FittedModel) (cvec : List ℚ),
      (Statsmodels.testSingleContrast varNames (varNames.map fitOne) cvec).length =
        varNames.length) ∧
    (∀ (mwu : List ℚ → List ℚ → ℚ) (logFn : ℚ → ℚ),
      WilcoxonTest.testSingleContrast exAnnData mwu logFn
        ["condition", "A", "B"] = .error (.keyError "condition")) := by
  refine ⟨?_, ?_, ?_⟩
  · intro st fitOne cvec
    simp [StatsmodelsDE.testSingleContrast, StatsmodelsDE.fit, sortByKey_length]
  · intro varNames fitOne cvec
    simp [Statsmodels.testSingleContrast, sortByKey_length]
  · intro mwu logFn
    rfl

/-- C10: the result table of `_test_single_contrast` is always sorted by
p-value in ascending order, for both the `StatsmodelsDE` (tl/de.py) and the
`Statsmodels` (methods/_statsmodels.py) adapters. -/
theorem testSingleContrast_sorted_by_pvalue :
    (∀ (varNames : List String) (models : List FittedModel) (cvec : List ℚ),
      List.Pairwise (fun a b => a.pvalue ≤ b.pvalue)
        (StatsmodelsDE.testSingleContrast varNames models cvec)) ∧
    (∀ (varNames : List String) (models : List FittedModel) (cvec : List ℚ),
      List.Pairwise (fun a b => a.p_value ≤ b.p_value)
        (Statsmodels.testSingleContrast varNames models cvec)) :=
  ⟨fun _ _ _ => sortByKey_sorted _ _, fun _ _ _ => sortByKey_sorted _ _⟩

/-- C8: constructing a method instance on a matrix containing a NaN, an
Inf, or a non-numeric value raises during `BaseMethod.__init__`, before
`fit` can be called, whatever the backend's `_check_counts` predicate is
(the gate is run by the base constructor for every backend).  A NaN or Inf
entry raises `ValueError`; a non-numeric value makes `np.isnan` itself
raise `TypeError` (its own test accepts either exception). -/
theorem init_rejects_invalid_counts (checkCounts : CountMatrix → Bool)
    (m : CountMatrix) (design : Design)
    (h : matrixHasNaN m = true ∨ matrixHasInf m = true ∨
      matrixNonNumericDtype m = true) :
    ∃ e, BaseMethod.init checkCounts m design = .error e := by
  unfold BaseMethod.init
  by_cases h1 : matrixNonNumericDtype m = true
  · exact ⟨_, by rw [if_pos h1]⟩
  · have h2 : (matrixHasNaN m || matrixHasInf m) = true := by
      rcases h with h | h | h
      · simp [h]
      · simp [h]
      · exact absurd h h1
    exact ⟨_, by rw [if_neg h1, if_pos h2]⟩

theorem init_rejects_invalid_counts_witness :
    matrixHasNaN [[MVal.num 1, MVal.nanV]] = true ∧
    (∃ e, BaseMethod.init (fun _ => true) [[MVal.num 1, MVal.nanV]]
      (.rawMatrix []) = .error e) :=
  ⟨by decide,
   init_rejects_invalid_counts (fun _ => true) [[MVal.num 1, MVal.nanV]]
     (.rawMatrix []) (Or.inl (by decide))⟩

/-- C3 (claim as stated is violated by the EdgeR backends): `StatsmodelsDE`
refitting is idempotent — `fit` discards whatever model collection was
stored and rebuilds it from `adata.var_names` — but on an `EdgeRDE`
instance the first `fit()` stores the edgeR fit object in the attribute
named `fit` (de.py line 387, _edger.py line 96), so the second `fit()`
call resolves to that non-callable object and raises `TypeError` instead
of rebuilding. -/
theorem fit_refit_behaviour :
    (∀ (fitOne : String → FittedModel) (st : SMDEState),
      StatsmodelsDE.fit fitOne (StatsmodelsDE.fit fitOne st) =
        StatsmodelsDE.fit fitOne st) ∧
    (∀ (fitOne : String → FittedModel) (st : SMDEState)
      (ms : Option (List FittedModel)),
      StatsmodelsDE.fit fitOne { st with models := ms } =
        StatsmodelsDE.fit fitOne st) ∧
    (EdgeRDE.callFit (R := Unit) (fun _ => ()) ⟨none⟩ = .ok ⟨some ()⟩ ∧
     EdgeRDE.callFit (R := Unit) (fun _ => ()) ⟨some ()⟩ =
       .error (.typeError "ListSexpVector object is not callable")) :=
  ⟨fun _ _ => rfl, fun _ _ _ => rfl, rfl, rfl⟩

/-- C2 (the code does not do what the claim says): in
`Statsmodels._test_single_contrast` the `adj_p_value` of every row is
`fdrcorrection` of the ONE-element array holding that row's own p-value,
so it never depends on the other features.  Concretely, with two features
whose per-feature p-values are 1/25 and 1/20, the code returns adjusted
p-values [1/25, 1/20] (each equal to its own raw p-value), whereas
`fdrcorrection` applied across the features of the contrast returns
[1/20, 1/20], which differs. -/
theorem statsmodels_adj_p_value_not_corrected_across_features :
    (Statsmodels.testSingleContrast ["gene1", "gene2"]
      [fun _ => ⟨1/25, 0, 0, 0⟩, fun _ => ⟨1/20, 0, 0, 0⟩] []).map
        (fun r => r.adj_p_value) = [1/25, 1/20] ∧
    fdrcorrection [1/25, 1/20] = [1/20, 1/20] ∧
    ((1 : ℚ)/25 ≠ 1/20) := by
  refine ⟨?_, ?_, by norm_num⟩
  · norm_num [Statsmodels.testSingleContrast, fdrcorrection, enumFrom,
      sortByKey, insertByKey, suffixMins, List.zip]
  · norm_num [fdrcorrection, enumFrom, sortByKey, insertByKey, suffixMins]

/-! ## C4: omitting a variable versus supplying its reference level

Relating the two `cond` runs: `d1` is the dictionary of the call that
supplied `v = ref` explicitly, `d2` the dictionary of the call that omitted
`v`; away from `v` the two agree, and at `v` the first holds `ref` while
the second holds nothing (before the loop reaches `v`) or `ref` (after). -/

def DictRel (v ref : String) (d1 d2 : CondDict) : Prop :=
  (∀ k, k ≠ v → dictGet d1 k = dictGet d2 k) ∧
  dictGet d1 v = some (.str ref) ∧
  (dictGet d2 v = none ∨ dictGet d2 v = some (.str ref))

theorem dictRel_insert (v ref var : String) (hvar : var ≠ v)
    (d1 d2 : CondDict) (hrel : DictRel v ref d1 d2) (val : CondVal) :
    DictRel v ref (dictInsert d1 var val) (dictInsert d2 var val) := by
  obtain ⟨hne, hd1v, hd2v⟩ := hrel
  refine ⟨?_, ?_, ?_⟩
  · intro k hk
    by_cases hkvar : k = var
    · subst hkvar; rw [dictGet_dictInsert_self, dictGet_dictInsert_self]
    · rw [dictGet_dictInsert_ne _ _ _ _ hkvar,
        dictGet_dictInsert_ne _ _ _ _ hkvar]
      exact hne k hk
  · rw [dictGet_dictInsert_ne _ _ _ _ (Ne.symm hvar)]; exact hd1v
  · rw [dictGet_dictInsert_ne _ _ _ _ (Ne.symm hvar)]; exact hd2v

/-- Lockstep simulation of one loop iteration on a variable other than
`v`: both runs take the same branch (the dictionaries agree at `var`), and
either both raise the same error or both succeed with the relation
preserved; moreover a `v` entry already present in the omitted run's
dictionary survives. -/
theorem fillVar_ne_sim (spec : ModelMatrixSpec) (v ref var : String)
    (hvar : var ≠ v) (d1 d2 : CondDict) (hrel : DictRel v ref d1 d2) :
    (∃ e, fillVar spec var d1 = .error e ∧ fillVar spec var d2 = .error e) ∨
    (∃ e1 e2, fillVar spec var d1 = .ok e1 ∧ fillVar spec var d2 = .ok e2 ∧
      DictRel v ref e1 e2 ∧
      (dictGet d2 v = some (.str ref) → dictGet e2 v = some (.str ref))) := by
  have hvv : dictGet d1 var = dictGet d2 var := hrel.1 var hvar
  cases henc : encoderGet spec.encoderState var with
  | none =>
    exact Or.inl ⟨DEError.keyError var, by simp [fillVar, henc],
      by simp [fillVar, henc]⟩
  | some kind =>
    cases hget : dictGet d2 var with
    | some val =>
      have hget1 : dictGet d1 var = some val := hvv.trans hget
      cases kind with
      | numerical =>
        exact Or.inr ⟨d1, d2, by simp [fillVar, henc, hget1],
          by simp [fillVar, henc, hget], hrel, fun h => h⟩
      | categorical cats =>
        cases val with
        | str sv =>
          by_cases hmem : sv ∈ cats
          · exact Or.inr ⟨d1, d2, by simp [fillVar, henc, hget1, hmem],
              by simp [fillVar, henc, hget, hmem], hrel, fun h => h⟩
          · exact Or.inl
              ⟨DEError.valueError ("You specified a non-existant category for " ++ var),
               by simp [fillVar, henc, hget1, hmem],
               by simp [fillVar, henc, hget, hmem]⟩
        | num q =>
          exact Or.inl
            ⟨DEError.valueError ("You specified a non-existant category for " ++ var),
             by simp [fillVar, henc, hget1],
             by simp [fillVar, henc, hget]⟩
    | none =>
      have hget1 : dictGet d1 var = none := hvv.trans hget
      cases kind with
      | numerical =>
        refine Or.inr ⟨dictInsert d1 var (.num 0), dictInsert d2 var (.num 0),
          by simp [fillVar, henc, hget1], by simp [fillVar, henc, hget],
          dictRel_insert v ref var hvar d1 d2 hrel (.num 0), ?_⟩
        intro h
        rw [dictGet_dictInsert_ne _ _ _ _ (Ne.symm hvar)]; exact h
      | categorical cats =>
        cases hdrop : droppedCategories spec var cats with
        | error e =>
          exact Or.inl ⟨e, by simp [fillVar, henc, hget1, hdrop, bind, Except.bind],
            by simp [fillVar, henc, hget, hdrop, bind, Except.bind]⟩
        | ok dropped =>
          match dropped with
          | [] =>
            exact Or.inl ⟨DEError.assertionError,
              by simp [fillVar, henc, hget1, hdrop, bind, Except.bind],
              by simp [fillVar, henc, hget, hdrop, bind, Except.bind]⟩
          | [d] =>
            refine Or.inr ⟨dictInsert d1 var (.str d), dictInsert d2 var (.str d),
              by simp [fillVar, henc, hget1, hdrop, bind, Except.bind],
              by simp [fillVar, henc, hget, hdrop, bind, Except.bind],
              dictRel_insert v ref var hvar d1 d2 hrel (.str d), ?_⟩
            intro h
            rw [dictGet_dictInsert_ne _ _ _ _ (Ne.symm hvar)]; exact h
          | d :: d2' :: ds =>
            exact Or.inl ⟨DEError.assertionError,
              by simp [fillVar, henc, hget1, hdrop, bind, Except.bind],
              by simp [fillVar, henc, hget, hdrop, bind, Except.bind]⟩

/-- Lockstep simulation of the loop iteration on `v` itself: the run that
supplied `v = ref` validates and keeps its dictionary; the run that omitted
`v` fills in the single dropped category `ref`. -/
theorem fillVar_v_sim (spec : ModelMatrixSpec) (v ref : String)
    (cats : List String)
    (henc : encoderGet spec.encoderState v = some (.categorical cats))
    (href : ref ∈ cats)
    (hdrop : droppedCategories spec v cats = .ok [ref])
    (d1 d2 : CondDict) (hrel : DictRel v ref d1 d2) :
    fillVar spec v d1 = .ok d1 ∧
    ∃ e2, fillVar spec v d2 = .ok e2 ∧ DictRel v ref d1 e2 ∧
      dictGet e2 v = some (.str ref) := by
  obtain ⟨hne, hd1v, hd2v⟩ := hrel
  constructor
  · simp [fillVar, henc, hd1v, href]
  · rcases hd2v with hd2v | hd2v
    · refine ⟨dictInsert d2 v (.str ref),
        by simp [fillVar, henc, hd2v, hdrop, bind, Except.bind], ?_, ?_⟩
      · refine ⟨?_, hd1v, Or.inr (dictGet_dictInsert_self d2 v (.str ref))⟩
        intro k hk
        rw [dictGet_dictInsert_ne _ _ _ _ hk]
        exact hne k hk
      · exact dictGet_dictInsert_self d2 v (.str ref)
    · exact ⟨d2, by simp [fillVar, henc, hd2v, href], ⟨hne, hd1v, Or.inr hd2v⟩, hd2v⟩

/-- Lockstep simulation of the whole loop: from related dictionaries, the
two runs either raise the same error or produce related dictionaries; and
once the loop has visited `v` (or `v` was already filled), the omitted
run's dictionary holds `ref` at `v`. -/
theorem fillDefaults_sim (spec : ModelMatrixSpec) (v ref : String)
    (cats : List String)
    (henc : encoderGet spec.encoderState v = some (.categorical cats))
    (href : ref ∈ cats)
    (hdrop : droppedCategories spec v cats = .ok [ref]) :
    ∀ (vs : List String) (d1 d2 : CondDict), DictRel v ref d1 d2 →
    (∃ e, fillDefaults spec vs d1 = .error e ∧
      fillDefaults spec vs d2 = .error e) ∨
    (∃ f1 f2, fillDefaults spec vs d1 = .ok f1 ∧
      fillDefaults spec vs d2 = .ok f2 ∧ DictRel v ref f1 f2 ∧
      ((v ∈ vs ∨ dictGet d2 v = some (.str ref)) →
        dictGet f2 v = some (.str ref))) := by
  intro vs
  induction vs with
  | nil =>
    intro d1 d2 hrel
    refine Or.inr ⟨d1, d2, rfl, rfl, hrel, ?_⟩
    rintro (h | h)
    · exact absurd h (List.not_mem_nil v)
    · exact h
  | cons var rest ih =>
    intro d1 d2 hrel
    by_cases hv : var = v
    · subst hv
      obtain ⟨h1, e2, h2, hrel2, he2v⟩ :=
        fillVar_v_sim spec var ref cats henc href hdrop d1 d2 hrel
      rcases ih d1 e2 hrel2 with ⟨e, hf1, hf2⟩ | ⟨f1, f2, hf1, hf2, hfrel, hfv⟩
      · exact Or.inl ⟨e, by simp [fillDefaults, h1, bind, Except.bind, hf1],
          by simp [fillDefaults, h2, bind, Except.bind, hf2]⟩
      · refine Or.inr ⟨f1, f2,
          by simp [fillDefaults, h1, bind, Except.bind, hf1],
          by simp [fillDefaults, h2, bind, Except.bind, hf2], hfrel, ?_⟩
        intro _
        exact hfv (Or.inr he2v)
    · rcases fillVar_ne_sim spec v ref var hv d1 d2 hrel with
        ⟨e, h1, h2⟩ | ⟨e1, e2, h1, h2, hrel2, hpres⟩
      · exact Or.inl ⟨e, by simp [fillDefaults, h1, bind, Except.bind],
          by simp [fillDefaults, h2, bind, Except.bind]⟩
      · rcases ih e1 e2 hrel2 with ⟨e, hf1, hf2⟩ | ⟨f1, f2, hf1, hf2, hfrel, hfv⟩
        · exact Or.inl ⟨e, by simp [fillDefaults, h1, bind, Except.bind, hf1],
            by simp [fillDefaults, h2, bind, Except.bind, hf2]⟩
        · refine Or.inr ⟨f1, f2,
            by simp [fillDefaults, h1, bind, Except.bind, hf1],
            by simp [fillDefaults, h2, bind, Except.bind, hf2], hfrel, ?_⟩
          rintro (hmem | hd2v)
          · rcases List.mem_cons.mp hmem with hmem | hmem
            · exact absurd hmem.symm hv
            · exact hfv (Or.inl hmem)
          · exact hfv (Or.inr (hpres hd2v))

/-- C4: for a formula-based design and a categorical variable `v` whose
encoder state records categories `cats` and whose single dropped (reference)
category — computed by `cond` from the design's column names — is `ref`,
calling `cond` with `v` explicitly set to `ref` yields the same result as
calling `cond` with `v` omitted; and the omitted variable is filled
deterministically with exactly that single dropped category (first
conjunct), never an average or an arbitrary category. -/
theorem cond_omitted_equals_reference (spec : ModelMatrixSpec)
    (v ref : String) (cats : List String) (kwargs : CondDict)
    (henc : encoderGet spec.encoderState v = some (.categorical cats))
    (href : ref ∈ cats)
    (hdrop : droppedCategories spec v cats = .ok [ref])
    (hkw : dictGet kwargs v = none) :
    fillVar spec v kwargs = .ok (dictInsert kwargs v (.str ref)) ∧
    BaseMethod.cond (.formulaBased spec) (dictInsert kwargs v (.str ref)) =
      BaseMethod.cond (.formulaBased spec) kwargs := by
  constructor
  · simp [fillVar, henc, hkw, hdrop, bind, Except.bind]
  · have hrel : DictRel v ref (dictInsert kwargs v (.str ref)) kwargs := by
      refine ⟨?_, dictGet_dictInsert_self kwargs v (.str ref), Or.inl hkw⟩
      intro k hk
      exact dictGet_dictInsert_ne _ _ _ _ hk
    rcases fillDefaults_sim spec v ref cats henc href hdrop spec.vars
        (dictInsert kwargs v (.str ref)) kwargs hrel with
      ⟨e, hf1, hf2⟩ | ⟨f1, f2, hf1, hf2, hfrel, hfv⟩
    · simp [BaseMethod.cond, hf1, hf2, bind, Except.bind]
    · simp only [BaseMethod.cond, hf1, hf2, bind, Except.bind]
      have hmap : spec.vars.map (fun u => dictGet f1 u) =
          spec.vars.map (fun u => dictGet f2 u) := by
        apply List.map_congr_left
        intro u hu
        by_cases huv : u = v
        · subst huv
          rw [hfrel.2.1, hfv (Or.inl hu)]
        · exact hfrel.1 u huv
      rw [hmap]

theorem cond_omitted_equals_reference_witness :
    encoderGet exSpec3.encoderState "donor" =
      some (.categorical ["D0", "D1", "D2"]) ∧
    "D0" ∈ ["D0", "D1", "D2"] ∧
    droppedCategories exSpec3 "donor" ["D0", "D1", "D2"] = .ok ["D0"] ∧
    dictGet [] "donor" = none ∧
    (fillVar exSpec3 "donor" [] = .ok (dictInsert [] "donor" (.str "D0")) ∧
     BaseMethod.cond (.formulaBased exSpec3) (dictInsert [] "donor" (.str "D0")) =
       BaseMethod.cond (.formulaBased exSpec3) []) :=
  ⟨by decide, by decide, by decide, by decide,
   cond_omitted_equals_reference exSpec3 "donor" "D0" ["D0", "D1", "D2"] []
     (by decide) (by decide) (by decide) (by decide)⟩
